import Mathlib

/-!
Verification of the run-identification core of the `return-dispatch` GitHub
action (GitHub repository `return-dispatch`).

The repository ships several historical revisions of each module side by side.
Where revisions disagree, the definitions below model the revision pinned by the
repository's current test-suites (`src/api.spec.ts`, `src/return-dispatch.spec.ts`,
`src/utils.spec.ts`); each definition's comment cites the source location it
embeds.  Asynchronous remote calls are embedded as explicit oracles (`env`,
`requester`, producer streams), wall-clock time as explicit clock functions, and
thrown JavaScript errors as tagged result constructors.
-/

set_option autoImplicit false

namespace ReturnDispatch

/-! ## Character-list utilities

JavaScript string/regex primitives used by the source are embedded as
executable functions on `List Char`.
-/

/-- `leadsWith pat s` is true when `s` starts with the character sequence `pat`
(the anchored-at-position regex test used below). -/
def leadsWith : List Char → List Char → Bool
  | [], _ => true
  | _ :: _, [] => false
  | p :: ps, c :: cs => p == c && leadsWith ps cs

/-- `containsSeq pat s`: `pat` occurs contiguously somewhere inside `s`.  This
is `RegExp.test` for a pattern with no unescaped metacharacters. -/
def containsSeq (pat : List Char) : List Char → Bool
  | [] => pat.isEmpty
  | c :: cs => leadsWith pat (c :: cs) || containsSeq pat cs

/-- `String.prototype.split` with a single-character separator:
`splitOnChar '"' "W/\"abc\"" = ["W/", "abc", ""]`. -/
def splitOnChar (sep : Char) : List Char → List (List Char)
  | [] => [[]]
  | c :: cs =>
    if c == sep then [] :: splitOnChar sep cs
    else
      match splitOnChar sep cs with
      | [] => [[c]]
      | p :: ps => (c :: p) :: ps

/-- The separator `/refs/heads/` (regex `\/?refs\/heads\/` with the optional
leading slash taken, the greedy choice). -/
def sepSlash : List Char := '/' :: 'r' :: 'e' :: 'f' :: 's' :: '/' :: 'h' :: 'e' :: 'a' :: 'd' :: 's' :: '/' :: []

/-- The separator `refs/heads/` (regex `\/?refs\/heads\/` without the optional
leading slash). -/
def sepBare : List Char := 'r' :: 'e' :: 'f' :: 's' :: '/' :: 'h' :: 'e' :: 'a' :: 'd' :: 's' :: '/' :: []

/-- One scan step of `String.prototype.split(/\/?refs\/heads\//)`: at each
position the leftmost match wins and `\/?` is greedy, so the 12-character
slash-prefixed separator is tried before the bare 11-character one.  `fuel`
bounds the number of scan steps; `splitRefsHeads` supplies `s.length + 1`,
which is always sufficient since every step consumes at least one character. -/
def splitGo : Nat → List Char → List Char → List (List Char)
  | _, acc, [] => [acc.reverse]
  | 0, acc, rest => [(acc.reverse ++ rest)]
  | fuel + 1, acc, c :: rest =>
    if leadsWith sepSlash (c :: rest) then
      acc.reverse :: splitGo fuel [] ((c :: rest).drop 12)
    else if leadsWith sepBare (c :: rest) then
      acc.reverse :: splitGo fuel [] ((c :: rest).drop 11)
    else
      splitGo fuel (c :: acc) rest

/-- `ref.split(/\/?refs\/heads\//)` from `getBranchNameFromRef`
(`src/utils.ts`, also `src/return-dispatch.ts` third revision lines 234-239). -/
def splitRefsHeads (s : List Char) : List (List Char) :=
  splitGo (s.length + 1) [] s

/-! ## Branch-reference parsing (`src/utils.ts` / `src/return-dispatch.ts` lines 232-278)

The model follows the revision returning a structured `BranchNameResult`
(`src/return-dispatch.ts` lines 245-278, identical to the current
`src/utils.ts` exercised by `src/utils.spec.ts`).
-/

/-- The TypeScript union `RefBranch | RefTag`.  A tag result carries
`isTag = true` and no branch name; a branch result carries `isTag = false`
and an optional extracted name. -/
structure BranchNameResult where
  branchName : Option String
  isTag : Bool
  ref : String
deriving DecidableEq, Repr

/-- `getBranchNameFromRef` (`src/return-dispatch.ts` lines 234-239): split the
ref on `/\/?refs\/heads\//`; if more than one piece results and the second
piece is non-empty, that piece is the branch name. -/
def getBranchNameFromRef (ref : String) : Option String :=
  let refItems := splitRefsHeads ref.toList
  if refItems.length > 1 && ((refItems.get? 1).map List.length).getD 0 > 0 then
    (refItems.get? 1).map (fun cs => String.mk cs)
  else
    none

/-- `isTagRef` (`src/return-dispatch.ts` lines 241-243): test
`/\/?refs\/tags\//`, i.e. the ref contains `refs/tags/`. -/
def isTagRef (ref : String) : Bool :=
  containsSeq ('r' :: 'e' :: 'f' :: 's' :: '/' :: 't' :: 'a' :: 'g' :: 's' :: '/' :: []) ref.toList

/-- `getBranchName` (`src/return-dispatch.ts` lines 258-278): tag refs yield a
tag result; otherwise a branch result carrying whatever
`getBranchNameFromRef` extracted, with the original ref preserved. -/
def getBranchName (ref : String) : BranchNameResult :=
  if isTagRef ref then
    { branchName := none, isTag := true, ref := ref }
  else
    { branchName := getBranchNameFromRef ref, isTag := false, ref := ref }

end ReturnDispatch

namespace ReturnDispatch

/-! ## Conditional-fetch cache (`src/etags.ts`)

The store key `JSON.stringify({ endpoint, params })` is an injective
serialisation of the pair `(endpoint, params)`; the model keys entries by the
pair itself (`P` is the parameter-object type, with decidable equality playing
the role of serialised-string equality).  One `withEtag` call is embedded as a
pure function from the store before the call to the response delivered and the
store after the call; the remote `requester` is an oracle receiving the
`If-None-Match` header value that the call attaches (or `none`).
-/

/-- An `OctokitResponse`: observed status, payload and the `etag` response
header (absent when the header is not a string). -/
structure HttpResponse (T : Type) where
  status : Nat
  data : T
  etagHeader : Option String
deriving DecidableEq, Repr

/-- `EtagStoreEntry` (`src/etags.ts` lines 7-10). -/
structure EtagStoreEntry (T : Type) where
  etag : String
  savedResponse : HttpResponse T
deriving DecidableEq, Repr

/-- The module-level `etagStore` map, as an association list keyed by
`(endpoint, params)`. -/
abbrev EtagStore (P T : Type) : Type := List ((String × P) × EtagStoreEntry T)

/-- `extractEtag` (`src/etags.ts` lines 43-46):
`response.headers.etag.split('"')[1] ?? ""`, or nothing when the header is
absent. -/
def extractEtag {T : Type} (response : HttpResponse T) : Option String :=
  match response.etagHeader with
  | none => none
  | some s => some (String.mk (((splitOnChar '"' s.toList).get? 1).getD []))

section Etags

variable {P T : Type} [DecidableEq P]

/-- `getEtag` (`src/etags.ts` lines 48-50): look the key up in the store. -/
def getEtag (store : EtagStore P T) (endpoint : String) (params : P) :
    Option (EtagStoreEntry T) :=
  (List.find? (fun kv => decide (kv.1 = (endpoint, params))) store).map (fun kv => kv.2)

/-- `Map.prototype.set`: replace the entry for the key, or append it. -/
def storeSet (store : EtagStore P T) (k : String × P) (v : EtagStoreEntry T) :
    EtagStore P T :=
  match store with
  | [] => [(k, v)]
  | (k', v') :: rest => if k' = k then (k, v) :: rest else (k', v') :: storeSet rest k v

/-- `rememberEtag` (`src/etags.ts` lines 52-64): store the response keyed by
`(endpoint, params)` when it carries a (truthy, i.e. non-empty) validator;
otherwise leave the store untouched. -/
def rememberEtag (store : EtagStore P T) (endpoint : String) (params : P)
    (response : HttpResponse T) : EtagStore P T :=
  match extractEtag response with
  | none => store
  | some e => if e = "" then store else storeSet store (endpoint, params) ⟨e, response⟩

/-- The `If-None-Match` value that `withEtag` attaches for this key: the stored
validator when an entry exists and its validator is truthy (non-empty), else
nothing (`src/etags.ts` lines 19-26). -/
def conditionalHeader (store : EtagStore P T) (endpoint : String) (params : P) :
    Option String :=
  match getEtag store endpoint params with
  | none => none
  | some entry => if entry.etag = "" then none else some entry.etag

/-- `withEtag` (`src/etags.ts` lines 14-41): issue the request with the
conditional header; on a 304 whose validator matches the (truthy) stored one
with a stored response present, substitute the stored response and leave the
store alone; otherwise remember the fresh response and pass it through. -/
def withEtag (store : EtagStore P T) (endpoint : String) (params : P)
    (requester : Option String → HttpResponse T) :
    HttpResponse T × EtagStore P T :=
  let sent := conditionalHeader store endpoint params
  let response := requester sent
  match getEtag store endpoint params, sent with
  | some entry, some tag =>
    if response.status = 304 ∧ extractEtag response = some tag then
      (entry.savedResponse, store)
    else
      (response, rememberEtag store endpoint params response)
  | _, _ => (response, rememberEtag store endpoint params response)

end Etags

/-! ## Constants (`src/constants.ts`) -/

/-- `WORKFLOW_FETCH_TIMEOUT_MS = 60 * 1000` (`src/constants.ts` line 3), as an
integer number of milliseconds. -/
def WORKFLOW_FETCH_TIMEOUT_MS : Int := 60 * 1000

/-- `WORKFLOW_JOB_STEPS_RETRY_MS = 5000` (`src/constants.ts` line 4). -/
def WORKFLOW_JOB_STEPS_RETRY_MS : Nat := 5000

/-- `WORKFLOW_JOB_STEPS_SERVER_ERROR_RETRY_MAX = 3` (`src/constants.ts` line 5). -/
def WORKFLOW_JOB_STEPS_SERVER_ERROR_RETRY_MAX : Nat := 3

/-- `WORKFLOW_JOB_STEPS_SERVER_ERROR_RETRY_MS = 500` (`src/constants.ts` line 6). -/
def WORKFLOW_JOB_STEPS_SERVER_ERROR_RETRY_MS : Nat := 500

/-! ## `dispatchWorkflow` (`src/api.ts` lines 17-57)

Only the status observation decides success: the model takes the observed
status of the `createWorkflowDispatch` call and reports whether the function
returns normally or raises.  The revision pinned by `src/api.spec.ts`
("should throw if a non-204 status is returned", expecting the message
`expected 204 but received 401`) treats 204 as the sole success status, as
does `src/api.ts` line 32.
-/

/-- Outcome of `dispatchWorkflow`: normal return, or a raised `Error` with its
message. -/
inductive DispatchResult where
  | ok
  | failed (message : String)
deriving DecidableEq, Repr

/-- `dispatchWorkflow` reduced to its status check (`src/api.ts` lines 32-36). -/
def dispatchWorkflow (status : Nat) : DispatchResult :=
  if status ≠ 204 then
    .failed ("Failed to dispatch action, expected 204 but received " ++ toString status)
  else
    .ok

/-! ## `fetchWorkflowId` (etag-era revision, `src/api.ts` history lines 331-392)

This is the revision pinned by `src/api.spec.ts` ("should return the workflow
ID when the name is a substring of another workflow name", and the
`Failed to fetch workflows` message): the escaped filename is anchored behind a
path separator via `new RegExp("/" + sanitisedFilename)`.  Since every regex
metacharacter of the input is escaped first, the compiled pattern matches
exactly the literal string `"/" ++ filename.trim()`, embedded here by
stripping the escape backslashes and testing literal containment.
-/

/-- The escape set of `/[.*+?^$\x7b\x7d()|[\]\\]/g`. -/
def regexpSpecials : List Char :=
  '.' :: '*' :: '+' :: '?' :: '^' :: '$' :: '\x7b' :: '\x7d' :: '(' :: ')' :: '|' :: '[' :: ']' :: '\\' :: []

/-- `String.prototype.replace(/[...]/g, "\\$&")` on one character. -/
def escapeRegExpChar (c : Char) : List Char :=
  if c ∈ regexpSpecials then '\\' :: c :: [] else c :: []

/-- JavaScript `String.prototype.trim` whitespace (the ASCII members; the
filenames under consideration contain no exotic whitespace). -/
def jsWhitespace (c : Char) : Bool :=
  c == ' ' || c == '\t' || c == '\n' || c == '\r' || c == '\x0b' || c == '\x0c'

/-- `String.prototype.trim`. -/
def trimChars (s : List Char) : List Char :=
  ((s.dropWhile jsWhitespace).reverse.dropWhile jsWhitespace).reverse

/-- `workflowFilename.replace(/[.*+?^$\x7b\x7d()|[\]\\]/g, "\\$&").trim()`. -/
def sanitiseFilename (filename : String) : List Char :=
  trimChars (filename.toList.flatMap escapeRegExpChar)

/-- Interpret a fully-escaped pattern as the literal character sequence it
matches: each `\c` stands for the literal `c`. -/
def stripEscapes : List Char → List Char
  | [] => []
  | '\\' :: c :: rest => c :: stripEscapes rest
  | c :: rest => c :: stripEscapes rest

/-- `new RegExp("/" + sanitisedFilename).test(path)`: the pattern has no
unescaped metacharacters, so the test is literal containment of
`'/' ::` the unescaped sanitised filename. -/
def filenameRegexTest (filename : String) (path : String) : Bool :=
  containsSeq ('/' :: stripEscapes (sanitiseFilename filename)) path.toList

/-- One page of the `listRepoWorkflows` pagination: the observed status and the
page's workflow entries. -/
structure Workflow where
  id : Nat
  path : String
deriving DecidableEq, Repr

/-- Outcome of `fetchWorkflowId`: the resolved id, a raised upstream-status
error, or the raised `Unable to find ID` error after exhausting pagination. -/
inductive FetchWorkflowIdResult where
  | ok (id : Nat)
  | upstreamError (status : Nat)
  | notFound
deriving DecidableEq, Repr

/-- `fetchWorkflowId` over the paginated listing: raise on a non-200 page,
otherwise take the first entry of the first page whose path passes the
anchored regex test; raise not-found after the last page. -/
def fetchWorkflowId (pages : List (Nat × List Workflow)) (filename : String) :
    FetchWorkflowIdResult :=
  match pages with
  | [] => .notFound
  | (status, page) :: rest =>
    if status ≠ 200 then .upstreamError status
    else
      match page.find? (fun w => filenameRegexTest filename w.path) with
      | some w => .ok w.id
      | none => fetchWorkflowId rest filename

/-! ## `retryOrTimeout` (etag-era revision, `src/api.ts` history lines 552-569)

```
const startTime = Date.now();
let elapsedTime = 0;
while (elapsedTime < timeoutMs) \x7b
  const response = await retryFunc();
  if (response.length > 0) return \x7b success: true, value: response \x7d;
  await sleep(1000);
  elapsedTime = Date.now() - startTime;
\x7d
return \x7b success: false, reason: "timeout" \x7d;
```

The producer is an oracle `prod : Nat → List α` giving the value returned by
its n-th invocation; the clock is an oracle giving `Date.now() - startTime` as
read at the bottom of the n-th iteration (after its 1000 ms sleep), together
with the physical fact that each iteration consumes wall-clock time — the model
only needs the weak bound `n + 1 ≤ elapsedAfter n`, amply implied by the
1000 ms sleep.  The result is paired with the number of producer invocations
performed.
-/

/-- Wall-clock oracle for `retryOrTimeout`. -/
structure Clock where
  elapsedAfter : Nat → Nat
  progress : ∀ n, n + 1 ≤ elapsedAfter n

/-- The `Result<T[]>` of `retryOrTimeout`: success with the first non-empty
collection, or the structured timeout failure. -/
inductive RetryOrTimeoutResult (α : Type) where
  | success (value : List α)
  | timeoutFail
deriving DecidableEq, Repr

section RetryOrTimeout

variable {α : Type}

/-- The `while` loop of `retryOrTimeout`, entered with `n` completed
iterations: the pending check reads `0` before the first iteration and the
clock value recorded at the bottom of iteration `n - 1` afterwards. -/
def retryOrTimeoutGo (prod : Nat → List α) (clock : Clock) (timeoutMs : Int)
    (n : Nat) : RetryOrTimeoutResult α × Nat :=
  if h : (if n = 0 then (0 : Int) else clock.elapsedAfter (n - 1)) < timeoutMs then
    let response := prod n
    if response.length > 0 then (.success response, n + 1)
    else retryOrTimeoutGo prod clock timeoutMs (n + 1)
  else
    (.timeoutFail, n)
termination_by (timeoutMs - n).toNat
decreasing_by
  have hn : (n : Int) < timeoutMs := by
    by_cases h0 : n = 0
    · subst h0
      simpa using h
    · simp only [h0, if_false, dif_neg, not_false_iff] at h
      have := clock.progress (n - 1)
      omega
  omega

/-- `retryOrTimeout(retryFunc, timeoutMs)`, returning the structured result and
the number of producer invocations. -/
def retryOrTimeout (prod : Nat → List α) (clock : Clock) (timeoutMs : Int) :
    RetryOrTimeoutResult α × Nat :=
  retryOrTimeoutGo prod clock timeoutMs 0

end RetryOrTimeout

/-! ## Step inspector (`src/return-dispatch.ts` lines 8-101)

`api.getWorkflowRunJobSteps` is embedded as an oracle `env : Nat → StepsOutcome`
giving the outcome of the n-th step-fetch invocation (counted globally across
the scan), and `api.fetchWorkflowRunUrl` as a total oracle `urlOf` (the claims
under verification never exercise a failing URL fetch).  The scan returns its
result together with the list of run ids passed to the step fetch, in call
order — so the list length is the number of step-fetch invocations.  The
while-loop over `currentWorkflowRunIndex` is embedded as recursion over the
remaining suffix of `workflowRunIds`; a JavaScript array with explicit
`undefined` entries is a `List (Option Nat)`.
-/

/-- Outcome of one `api.getWorkflowRunJobSteps` call: the (deduplicated) step
names, or a raised `Error` with its message. -/
inductive StepsOutcome where
  | ok (steps : List String)
  | err (message : String)

/-- Result of `attemptToFindRunId` (revision at `src/return-dispatch.ts`
lines 41-53: `found`/not-found), extended with the propagated unhandled error
(`throw error` at line 32 of `shouldRetryOrThrow`). -/
inductive FindResult where
  | found (id : Nat) (url : String)
  | notFound
  | raised (message : String)
deriving DecidableEq, Repr

/-- Decision of `shouldRetryOrThrow`: `true` (retry the same candidate),
`false` (fall through, advancing the candidate index), or re-raising the
unhandled error. -/
inductive RetryDecision where
  | retry
  | advance
  | reraise
deriving DecidableEq, Repr

/-- `shouldRetryOrThrow` (`src/return-dispatch.ts` lines 8-35): a
`Server Error` is retried while `currentAttempts` is below
`WORKFLOW_JOB_STEPS_SERVER_ERROR_RETRY_MAX`; `Not Found` never retries; any
other message is re-raised. -/
def shouldRetryOrThrow (message : String) (currentAttempts : Nat) : RetryDecision :=
  if message = "Server Error" then
    if currentAttempts < WORKFLOW_JOB_STEPS_SERVER_ERROR_RETRY_MAX then .retry
    else .advance
  else if message = "Not Found" then .advance
  else .reraise

/-- `shouldRetryOrThrow` only answers `retry` below the retry maximum. -/
theorem shouldRetryOrThrow_retry_lt {message : String} {attempts : Nat}
    (h : shouldRetryOrThrow message attempts = .retry) :
    attempts < WORKFLOW_JOB_STEPS_SERVER_ERROR_RETRY_MAX := by
  by_cases hm : message = "Server Error"
  · by_cases ha : attempts < WORKFLOW_JOB_STEPS_SERVER_ERROR_RETRY_MAX
    · exact ha
    · simp [shouldRetryOrThrow, hm, ha] at h
  · by_cases hn : message = "Not Found" <;> simp [shouldRetryOrThrow, hm, hn] at h

/-- The `while` loop of `attemptToFindRunId` (`src/return-dispatch.ts`
lines 62-98), recursing over the remaining candidate suffix.  Arguments:
current per-candidate attempt counter, then the global step-fetch call counter
(indexing `env`).  On an `undefined` entry the loop breaks; on a step match the
run URL is fetched and returned; on an error, `shouldRetryOrThrow` decides
between retrying the same candidate (attempt counter incremented, index not
advanced), advancing (attempt counter reset to zero), or re-raising. -/
def attemptToFindRunIdGo (idTest : String → Bool) (env : Nat → StepsOutcome)
    (urlOf : Nat → String) :
    List (Option Nat) → Nat → Nat → FindResult × List Nat
  | [], _, _ => (.notFound, [])
  | none :: _, _, _ => (.notFound, [])
  | some id :: rest, attempt, calls =>
    match env calls with
    | .ok steps =>
      if steps.any idTest then
        (.found id (urlOf id), [id])
      else
        let p := attemptToFindRunIdGo idTest env urlOf rest 0 (calls + 1)
        (p.1, id :: p.2)
    | .err msg =>
      match hdec : shouldRetryOrThrow msg attempt with
      | .retry =>
        let p := attemptToFindRunIdGo idTest env urlOf (some id :: rest) (attempt + 1) (calls + 1)
        (p.1, id :: p.2)
      | .advance =>
        let p := attemptToFindRunIdGo idTest env urlOf rest 0 (calls + 1)
        (p.1, id :: p.2)
      | .reraise => (.raised msg, [id])
termination_by ids attempt _ =>
  (ids.length, WORKFLOW_JOB_STEPS_SERVER_ERROR_RETRY_MAX + 1 - attempt)
decreasing_by
  all_goals simp only [List.length_cons]
  all_goals try omega
  all_goals exact Prod.Lex.right _ (by have := shouldRetryOrThrow_retry_lt hdec; omega)

/-- `attemptToFindRunId(idRegex, workflowRunIds)` (`src/return-dispatch.ts`
lines 58-101), starting with candidate index 0 and attempt counter 0.
`idTest` is `idRegex.test`. -/
def attemptToFindRunId (idTest : String → Bool) (env : Nat → StepsOutcome)
    (urlOf : Nat → String) (workflowRunIds : List (Option Nat)) :
    FindResult × List Nat :=
  attemptToFindRunIdGo idTest env urlOf workflowRunIds 0 0

/-- Result type of the current `attemptToFindRunId`
(`src/types.ts`: `ResultSuccess | ResultTimeout | ResultInvalidInput`). -/
inductive FindResultCurrent where
  | success (id : Nat) (url : String)
  | timeoutFail
  | invalidInput
  | raised (message : String)
deriving DecidableEq, Repr

/-- Modelled from the spec: the repository's current `attemptToFindRunId` (the
revision exporting `getRunIdAndUrl`, exercised by `src/return-dispatch.spec.ts`
— e.g. "does nothing if called with an empty array", expecting
`reason = "invalid input"`) is not among the source files; only its result type
(`src/types.ts`), tests and callers are.  Per spec §4.3, when the candidate
list is empty or contains only missing/undefined entries it returns the
distinct "invalid input" failure without making any remote calls; otherwise it
scans exactly as the present revisions do, reporting the plain
searched-but-found-nothing failure. -/
def attemptToFindRunIdCurrent (idTest : String → Bool) (env : Nat → StepsOutcome)
    (urlOf : Nat → String) (workflowRunIds : List (Option Nat)) :
    FindResultCurrent × List Nat :=
  if workflowRunIds.isEmpty || workflowRunIds.all (fun x => x == none) then
    (.invalidInput, [])
  else
    match attemptToFindRunIdGo idTest env urlOf workflowRunIds 0 0 with
    | (.found id url, log) => (.success id url, log)
    | (.notFound, log) => (.timeoutFail, log)
    | (.raised msg, log) => (.raised msg, log)

/-! ## Run-identification orchestrator (`src/return-dispatch.ts` lines 119-175,
also `getRunId`, return-dispatch history lines 127-175)

```
const timeoutMs = workflowTimeoutSeconds * 1000;
let attemptNo = 0;
let elapsedTime = Date.now() - startTime;
while (elapsedTime < timeoutMs) \x7b
  attemptNo++;
  elapsedTime = Date.now() - startTime;
  const fetchWorkflowRunIds = await api.retryOrTimeout(
    () => api.getWorkflowRunIds(workflowId, branch),
    Math.max(constants.WORKFLOW_FETCH_TIMEOUT_MS, timeoutMs),
  );
  if (fetchWorkflowRunIds.timeout) break;
  const result = await attemptToFindRunId(idRegex, fetchWorkflowRunIds.value);
  if (result.found) return success;
  await sleep(constants.WORKFLOW_JOB_STEPS_RETRY_MS);
\x7d
return timeout-failure;
```

Each round's wrapped fetch-and-scan is abstracted into a per-round oracle
`env : Nat → RoundOutcome`; the elapsed-time reads are an oracle
`readAt : Nat → Nat`, where `readAt 0` is the read before the loop and
`readAt (k+1)` the read at the top of round `k+1` — the check after round
`k` therefore uses `readAt k`.  Each completed round sleeps
`WORKFLOW_JOB_STEPS_RETRY_MS = 5000` ms, so elapsed time grows at least
linearly in the round number; the model keeps the weak consequence
`k ≤ readAt k` needed for the loop to provably stop.  The model returns the
orchestrator result together with the list of timeout budgets passed to
`retryOrTimeout`, one per executed round, in round order — the instrumentation
the budget claim is about.
-/

/-- Outcome of one orchestrator round, as seen by the loop: the wrapped
candidate fetch timed out, or candidates were fetched and the step-inspector
scan either found the run or did not. -/
inductive RoundOutcome where
  | fetchTimeout
  | scanned (found : Option (Nat × String))

/-- Terminal result of the orchestrator loop. -/
inductive RunIdResult where
  | success (id : Nat) (url : String)
  | timeoutFail
deriving DecidableEq, Repr

/-- Elapsed-time oracle for the orchestrator: `readAt k` is
`Date.now() - startTime` at the k-th read (read 0 before the loop, read k at
the top of round k), in ms, with the linear lower bound implied by the 5000 ms
inter-round sleep. -/
structure RoundClock where
  readAt : Nat → Nat
  progress : ∀ k, k ≤ readAt k

/-- The orchestrator `while` loop, entered with `k` completed rounds: the
pending check uses `readAt k`; if it passes, round `k + 1` runs, passing
`Math.max(WORKFLOW_FETCH_TIMEOUT_MS, timeoutMs)` as the fetch budget and
consuming `env k`. -/
def getRunIdGo (env : Nat → RoundOutcome) (clock : RoundClock) (timeoutMs : Int)
    (k : Nat) : RunIdResult × List Int :=
  if h : (clock.readAt k : Int) < timeoutMs then
    match env k with
    | .fetchTimeout => (.timeoutFail, [max WORKFLOW_FETCH_TIMEOUT_MS timeoutMs])
    | .scanned (some (id, url)) =>
      (.success id url, [max WORKFLOW_FETCH_TIMEOUT_MS timeoutMs])
    | .scanned none =>
      let p := getRunIdGo env clock timeoutMs (k + 1)
      (p.1, max WORKFLOW_FETCH_TIMEOUT_MS timeoutMs :: p.2)
  else
    (.timeoutFail, [])
termination_by (timeoutMs - k).toNat
decreasing_by
  have := clock.progress k
  omega

/-- The orchestrator loop from its first check (`getRunId`, return-dispatch
history lines 141-175; `returnDispatch`, `src/return-dispatch.ts`
lines 126-178): result plus the fetch budgets passed per round. -/
def getRunId (env : Nat → RoundOutcome) (clock : RoundClock) (timeoutMs : Int) :
    RunIdResult × List Int :=
  getRunIdGo env clock timeoutMs 0

/-! ## Claims -/

/-- C8: branch reference parsing — `refs/heads/foo` and `/refs/heads/foo` both
yield a branch reference named `foo`; `refs/tags/v1` yields a tag reference
with no branch name; `refs/heads/` yields a branch reference with an absent
name rather than an error; in every case the original ref is preserved in the
result. -/
theorem c8_branch_reference_parsing :
    getBranchName "refs/heads/foo" =
      { branchName := some "foo", isTag := false, ref := "refs/heads/foo" } ∧
    getBranchName "/refs/heads/foo" =
      { branchName := some "foo", isTag := false, ref := "/refs/heads/foo" } ∧
    getBranchName "refs/tags/v1" =
      { branchName := none, isTag := true, ref := "refs/tags/v1" } ∧
    getBranchName "refs/heads/" =
      { branchName := none, isTag := false, ref := "refs/heads/" } := by
  refine ⟨by decide, by decide, by decide, by decide⟩

/-- C9 counterexample: the claim says a dispatch observing status 200 succeeds,
but `dispatchWorkflow` raises on every status other than 204 — at status 200
the claimed equivalence "success iff status 200 or 204" is false. -/
theorem c9_counterexample_status_200 :
    ¬ ((dispatchWorkflow 200 = .ok) ↔ (200 = 200 ∨ 200 = 204)) := by
  decide

/-- C9 (amended): `dispatchWorkflow` succeeds (returns without raising) if and
only if the underlying dispatch call's observed status is 204; every other
status — including 200 — raises an error. -/
theorem c9_dispatch_success_iff_204 (status : Nat) :
    dispatchWorkflow status = .ok ↔ status = 204 := by
  by_cases h : status = 204 <;> simp [dispatchWorkflow, h]

/-- C7: `fetchWorkflowId` resolves a filename against the listing by matching
the regex-escaped input anchored behind a path separator, so for input
`cake.yml` and a listing containing `small-cake.yml`, `big-cake.yml` and
`cake.yml` it resolves to the id of the exact trailing-segment match
`cake.yml`, whatever ids the three entries carry. -/
theorem c7_fetchWorkflowId_exact_trailing_match (a b c : Nat) :
    fetchWorkflowId
      [(200,
        [{ id := a, path := ".github/workflows/small-cake.yml" },
         { id := b, path := ".github/workflows/big-cake.yml" },
         { id := c, path := ".github/workflows/cake.yml" }])]
      "cake.yml" = .ok c := by
  have h₁ : filenameRegexTest "cake.yml" ".github/workflows/small-cake.yml" = false := by
    decide
  have h₂ : filenameRegexTest "cake.yml" ".github/workflows/big-cake.yml" = false := by
    decide
  have h₃ : filenameRegexTest "cake.yml" ".github/workflows/cake.yml" = true := by
    decide
  simp [fetchWorkflowId, List.find?, h₁, h₂, h₃]

/-- C5: for a key with a stored entry carrying validator `V` (stored validators
are always truthy), the next `withEtag` call on the identical key sends the
conditional `If-None-Match` header carrying `V`, and when the remote replies
304 with the same validator the stored response is returned unchanged; a call
whose key has no stored entry — in particular any call whose parameter object
differs in any field — sends no conditional header and returns the fresh
response as-is. -/
theorem c5_withEtag_conditional_roundtrip {P T : Type} [DecidableEq P] :
    (∀ (store : EtagStore P T) (endpoint : String) (params : P)
        (requester : Option String → HttpResponse T) (V : String)
        (saved : HttpResponse T),
      getEtag store endpoint params = some ⟨V, saved⟩ → V ≠ "" →
      conditionalHeader store endpoint params = some V ∧
      ((requester (some V)).status = 304 →
        extractEtag (requester (some V)) = some V →
        (withEtag store endpoint params requester).1 = saved)) ∧
    (∀ (store : EtagStore P T) (endpoint : String) (params : P)
        (requester : Option String → HttpResponse T),
      getEtag store endpoint params = none →
      conditionalHeader store endpoint params = none ∧
      (withEtag store endpoint params requester).1 = requester none) := by
  constructor
  · intro store endpoint params requester V saved hget hV
    have hheader : conditionalHeader store endpoint params = some V := by
      simp [conditionalHeader, hget, hV]
    refine ⟨hheader, fun h304 hex => ?_⟩
    simp [withEtag, hheader, hget, h304, hex]
  · intro store endpoint params requester hget
    have hheader : conditionalHeader store endpoint params = none := by
      simp [conditionalHeader, hget]
    refine ⟨hheader, ?_⟩
    simp [withEtag, hheader, hget]

/-- A sample etag store holding one entry: key `("ep", 5)`, validator `"abc"`,
saved response of status 200. -/
def sampleStore : EtagStore Nat Nat :=
  [(("ep", 5), ⟨"abc", ⟨200, 7, some "W/\"abc\""⟩⟩)]

/-- A remote that always replies 304 carrying the weak validator `W/"abc"`. -/
def sample304 : Option String → HttpResponse Nat :=
  fun _ => ⟨304, 0, some "W/\"abc\""⟩

/-- C5 witness: the conditional round-trip evaluated on `sampleStore` — the
second call on the stored key sends `If-None-Match: abc` and yields the stored
200 response, while the call on the unstored key `("ep", 6)` sends no
conditional header and passes the fresh 304 through. -/
theorem c5_witness :
    (conditionalHeader sampleStore "ep" 5 = some "abc" ∧
      (withEtag sampleStore "ep" 5 sample304).1 = ⟨200, 7, some "W/\"abc\""⟩) ∧
    (conditionalHeader sampleStore "ep" 6 = none ∧
      (withEtag sampleStore "ep" 6 sample304).1 = sample304 none) := by
  constructor
  · have h := (c5_withEtag_conditional_roundtrip (P := Nat) (T := Nat)).1
      sampleStore "ep" 5 sample304 "abc" ⟨200, 7, some "W/\"abc\""⟩
      (by decide) (by decide)
    exact ⟨h.1, h.2 (by decide) (by decide)⟩
  · exact (c5_withEtag_conditional_roundtrip (P := Nat) (T := Nat)).2
      sampleStore "ep" 6 sample304 (by decide)

/-- C6 counterexample: the claim says the entry map is never mutated on any
304 response, but a 304 carrying a validator when the store has no entry for
the key is remembered like any fresh response — starting from the empty store,
a 304 reply creates an entry. -/
theorem c6_counterexample_304_creates_entry :
    (sample304 (conditionalHeader ([] : EtagStore Nat Nat) "listWorkflowRuns" 0)).status = 304 ∧
    (withEtag ([] : EtagStore Nat Nat) "listWorkflowRuns" 0 sample304).2 ≠ [] := by
  decide

/-- C6 (amended): on a 304-class response the entry map is consulted and left
unchanged provided the response carries no (truthy) validator or its validator
matches the stored entry's validator for the key — the conditional-cache-hit
path; a 304 carrying a validator that has no matching stored entry is stored
like any fresh validator-bearing response. -/
theorem c6_store_unchanged_on_matched_304 {P T : Type} [DecidableEq P]
    (store : EtagStore P T) (endpoint : String) (params : P)
    (requester : Option String → HttpResponse T)
    (h304 : (requester (conditionalHeader store endpoint params)).status = 304)
    (hval : extractEtag (requester (conditionalHeader store endpoint params)) = none ∨
      extractEtag (requester (conditionalHeader store endpoint params)) = some "" ∨
      (∃ entry, getEtag store endpoint params = some entry ∧ entry.etag ≠ "" ∧
        extractEtag (requester (conditionalHeader store endpoint params)) = some entry.etag)) :
    (withEtag store endpoint params requester).2 = store := by
  rcases hget : getEtag store endpoint params with _ | entry
  · have hheader : conditionalHeader store endpoint params = none := by
      simp [conditionalHeader, hget]
    rw [hheader] at h304 hval
    rcases hval with hv | hv | ⟨entry, hentry, _, _⟩
    · simp [withEtag, hheader, hget, rememberEtag, hv]
    · simp [withEtag, hheader, hget, rememberEtag, hv]
    · rw [hget] at hentry
      exact absurd hentry (by simp)
  · by_cases he : entry.etag = ""
    · have hheader : conditionalHeader store endpoint params = none := by
        simp [conditionalHeader, hget, he]
      rw [hheader] at h304 hval
      rcases hval with hv | hv | ⟨entry', hentry, hne, _⟩
      · simp [withEtag, hheader, hget, rememberEtag, hv]
      · simp [withEtag, hheader, hget, rememberEtag, hv]
      · rw [hget] at hentry
        have hee : entry = entry' := by simpa using hentry
        exact absurd (hee ▸ he) hne
    · have hheader : conditionalHeader store endpoint params = some entry.etag := by
        simp [conditionalHeader, hget, he]
      rw [hheader] at h304 hval
      rcases hval with hv | hv | ⟨entry', hentry, _, hv⟩
      · simp [withEtag, hheader, hget, rememberEtag, hv]
      · simp [withEtag, hheader, hget, rememberEtag, hv, Ne.symm he]
      · rw [hget] at hentry
        have hee : entry = entry' := by simpa using hentry
        subst hee
        simp [withEtag, hheader, hget, h304, hv]

/-- C6 witness for the amended statement: a matched 304 on `sampleStore` leaves
the store identical. -/
theorem c6_witness :
    (withEtag sampleStore "ep" 5 sample304).2 = sampleStore := by
  exact c6_store_unchanged_on_matched_304 sampleStore "ep" 5 sample304 (by decide)
    (Or.inr (Or.inr ⟨⟨"abc", ⟨200, 7, some "W/\"abc\""⟩⟩, by decide, by decide, by decide⟩))

/-- A concrete wall clock for `retryOrTimeout`: each iteration's 1000 ms sleep
completes on schedule. -/
def unitClock : Clock where
  elapsedAfter := fun n => 1000 * (n + 1)
  progress := fun n => by change n + 1 ≤ 1000 * (n + 1); omega

/-- Producer invocations never decrease the invocation counter below its entry
value. -/
theorem retryOrTimeoutGo_calls_ge {α : Type} (prod : Nat → List α) (clock : Clock)
    (timeoutMs : Int) (n : Nat) : n ≤ (retryOrTimeoutGo prod clock timeoutMs n).2 := by
  refine retryOrTimeoutGo.induct prod clock timeoutMs
    (fun m => m ≤ (retryOrTimeoutGo prod clock timeoutMs m).2) ?_ ?_ ?_ n
  · intro x h resp hlen
    have hlen' : (prod x).length > 0 := hlen
    rw [retryOrTimeoutGo, dif_pos (by simpa using h)]
    dsimp only
    rw [if_pos hlen']
    simp
  · intro x h resp hlen ih
    have hlen' : ¬(prod x).length > 0 := hlen
    rw [retryOrTimeoutGo, dif_pos (by simpa using h)]
    dsimp only
    rw [if_neg hlen']
    omega
  · intro x h
    rw [retryOrTimeoutGo, dif_neg (by simpa using h)]

/-- C2 counterexample: the claim says the producer is invoked at least once
even for a zero or negative budget, but with budget `0` (and `-5`) the
`while (elapsedTime < timeoutMs)` check — with `elapsedTime` initialised to
`0` — fails before the first iteration, so `retryOrTimeout` returns the
timeout failure with zero producer invocations. -/
theorem c2_counterexample_zero_budget :
    retryOrTimeout (fun _ => ([] : List Nat)) unitClock 0 = (.timeoutFail, 0) ∧
    retryOrTimeout (fun _ => ([] : List Nat)) unitClock (-5) = (.timeoutFail, 0) := by
  constructor <;> (rw [retryOrTimeout, retryOrTimeoutGo]; norm_num)

/-- C2 (amended): for every producer and every budget that is zero or
negative, `retryOrTimeout` returns its timeout failure immediately without
invoking the producer; the producer is invoked at least once whenever the
budget is positive. -/
theorem c2_retryOrTimeout_boundary {α : Type} (prod : Nat → List α) (clock : Clock)
    (timeoutMs : Int) :
    (timeoutMs ≤ 0 → retryOrTimeout prod clock timeoutMs = (.timeoutFail, 0)) ∧
    (0 < timeoutMs → 1 ≤ (retryOrTimeout prod clock timeoutMs).2) := by
  constructor
  · intro ht
    rw [retryOrTimeout, retryOrTimeoutGo]
    rw [dif_neg (by simp; omega)]
  · intro ht
    rw [retryOrTimeout, retryOrTimeoutGo]
    rw [dif_pos (by simpa using ht)]
    dsimp only
    split
    · simp
    · have h1 := retryOrTimeoutGo_calls_ge prod clock timeoutMs (0 + 1)
      omega

/-- C2 witness: the amended boundary behaviour evaluated at budgets `-3`
and `7`. -/
theorem c2_witness :
    retryOrTimeout (fun _ => ([] : List Nat)) unitClock (-3) = (.timeoutFail, 0) ∧
    1 ≤ (retryOrTimeout (fun _ => ([] : List Nat)) unitClock 7).2 :=
  ⟨(c2_retryOrTimeout_boundary _ _ _).1 (by norm_num),
   (c2_retryOrTimeout_boundary _ _ _).2 (by norm_num)⟩

/-- The orchestrator wall clock of the C4 counterexample run: the k-th
elapsed-time read observes `5000 k` ms (each round's inter-round sleep is
5000 ms). -/
def roundClockC4 : RoundClock where
  readAt := fun k => 5000 * k
  progress := fun k => by change k ≤ 5000 * k; omega

/-- The per-round outcomes of the C4 counterexample run: the first round scans
without a match, the second round finds run 7. -/
def roundEnvC4 : Nat → RoundOutcome :=
  fun k => if k = 0 then .scanned none else .scanned (some (7, "url"))

/-- The C4 counterexample run evaluated: the orchestrator performs two rounds
and passes the budget `max(60000, 120000) = 120000` ms in both. -/
theorem getRunIdC4_eval :
    getRunId roundEnvC4 roundClockC4 120000 =
      (.success 7 "url", [120000, 120000]) := by
  have h1 : getRunIdGo roundEnvC4 roundClockC4 120000 1 =
      (.success 7 "url", [120000]) := by
    rw [getRunIdGo, dif_pos (by norm_num [roundClockC4])]
    rw [show roundEnvC4 1 = .scanned (some (7, "url")) from rfl]
    norm_num [WORKFLOW_FETCH_TIMEOUT_MS]
  rw [getRunId, getRunIdGo, dif_pos (by norm_num [roundClockC4])]
  rw [show roundEnvC4 0 = .scanned none from rfl]
  dsimp only
  rw [h1]
  norm_num [WORKFLOW_FETCH_TIMEOUT_MS]

/-- C4 counterexample: with an overall timeout of 120000 ms, the second round
starts with 5000 ms already elapsed, so the claim predicts a fetch budget of
`max 60000 (120000 - 5000) = 115000` ms — but the code passes
`max(WORKFLOW_FETCH_TIMEOUT_MS, timeoutMs) = 120000` ms in every round. -/
theorem c4_counterexample_budget_ignores_elapsed :
    (getRunId roundEnvC4 roundClockC4 120000).2.get? 1 = some (120000 : Int) ∧
    max WORKFLOW_FETCH_TIMEOUT_MS ((120000 : Int) - (roundClockC4.readAt 1 : Int)) ≠
      (120000 : Int) := by
  constructor
  · rw [getRunIdC4_eval]
    rfl
  · decide

/-- C4 (amended): in every round of the orchestrator loop, the timeout budget
passed to the `retryOrTimeout`-wrapped candidate fetch equals
`max(WORKFLOW_FETCH_TIMEOUT_MS, timeoutMs)` — the fixed minimum fetch window
against the caller-supplied *overall* timeout, independent of the time already
elapsed. -/
theorem c4_budget_is_max_fetch_overall (env : Nat → RoundOutcome)
    (clock : RoundClock) (timeoutMs : Int) (b : Int)
    (hb : b ∈ (getRunId env clock timeoutMs).2) :
    b = max WORKFLOW_FETCH_TIMEOUT_MS timeoutMs := by
  rw [getRunId] at hb
  have H : ∀ k, b ∈ (getRunIdGo env clock timeoutMs k).2 →
      b = max WORKFLOW_FETCH_TIMEOUT_MS timeoutMs := by
    refine getRunIdGo.induct env clock timeoutMs
      (fun k => b ∈ (getRunIdGo env clock timeoutMs k).2 →
        b = max WORKFLOW_FETCH_TIMEOUT_MS timeoutMs) ?_ ?_ ?_ ?_
    · intro x h henv hm
      rw [getRunIdGo, dif_pos h, henv] at hm
      simpa using hm
    · intro x h id url henv hm
      rw [getRunIdGo, dif_pos h, henv] at hm
      simpa using hm
    · intro x h henv ih hm
      rw [getRunIdGo, dif_pos h, henv] at hm
      dsimp only at hm
      rcases List.mem_cons.mp hm with hb' | hb'
      · exact hb'
      · exact ih hb'
    · intro x h hm
      rw [getRunIdGo, dif_neg h] at hm
      simp at hm
  exact H 0 hb

/-- C4 witness for the amended statement: the budget recorded for the second
round of the counterexample run equals `max 60000 120000`. -/
theorem c4_witness :
    (120000 : Int) = max WORKFLOW_FETCH_TIMEOUT_MS 120000 :=
  c4_budget_is_max_fetch_overall roundEnvC4 roundClockC4 120000 120000
    (by rw [getRunIdC4_eval]; simp)

/-! ### Unfolding lemmas for the step-inspector loop -/

section GoUnfold

variable (idTest : String → Bool) (env : Nat → StepsOutcome) (urlOf : Nat → String)

/-- An empty candidate suffix ends the scan with no further fetch. -/
theorem go_nil (a c : Nat) :
    attemptToFindRunIdGo idTest env urlOf [] a c = (.notFound, []) := by
  rw [attemptToFindRunIdGo]

/-- An `undefined` candidate breaks the loop with no further fetch. -/
theorem go_undef (rest : List (Option Nat)) (a c : Nat) :
    attemptToFindRunIdGo idTest env urlOf (none :: rest) a c = (.notFound, []) := by
  rw [attemptToFindRunIdGo]

/-- A successful step fetch whose steps match: the run URL is resolved and the
scan ends. -/
theorem go_ok_found {steps : List String} (id : Nat) (rest : List (Option Nat))
    (a c : Nat) (henv : env c = .ok steps) (hany : steps.any idTest = true) :
    attemptToFindRunIdGo idTest env urlOf (some id :: rest) a c =
      (.found id (urlOf id), [id]) := by
  rw [attemptToFindRunIdGo, henv]
  simp only [if_pos hany]

/-- A successful step fetch without a match: advance to the next candidate with
the attempt counter reset to zero. -/
theorem go_ok_next {steps : List String} (id : Nat) (rest : List (Option Nat))
    (a c : Nat) (henv : env c = .ok steps) (hany : ¬steps.any idTest = true) :
    attemptToFindRunIdGo idTest env urlOf (some id :: rest) a c =
      ((attemptToFindRunIdGo idTest env urlOf rest 0 (c + 1)).1,
        id :: (attemptToFindRunIdGo idTest env urlOf rest 0 (c + 1)).2) := by
  rw [attemptToFindRunIdGo, henv]
  simp only [if_neg hany]

/-- A failed step fetch that `shouldRetryOrThrow` retries: the same candidate
is fetched again with the attempt counter incremented — the index does not
advance. -/
theorem go_err_retry {msg : String} (id : Nat) (rest : List (Option Nat))
    (a c : Nat) (henv : env c = .err msg)
    (hdec : shouldRetryOrThrow msg a = .retry) :
    attemptToFindRunIdGo idTest env urlOf (some id :: rest) a c =
      ((attemptToFindRunIdGo idTest env urlOf (some id :: rest) (a + 1) (c + 1)).1,
        id :: (attemptToFindRunIdGo idTest env urlOf (some id :: rest) (a + 1) (c + 1)).2) := by
  rw [attemptToFindRunIdGo, henv]
  dsimp only
  split
  · rfl
  · rename_i heq
    rw [hdec] at heq
    cases heq
  · rename_i heq
    rw [hdec] at heq
    cases heq

/-- A failed step fetch that `shouldRetryOrThrow` abandons: advance to the next
candidate with the attempt counter reset to zero. -/
theorem go_err_advance {msg : String} (id : Nat) (rest : List (Option Nat))
    (a c : Nat) (henv : env c = .err msg)
    (hdec : shouldRetryOrThrow msg a = .advance) :
    attemptToFindRunIdGo idTest env urlOf (some id :: rest) a c =
      ((attemptToFindRunIdGo idTest env urlOf rest 0 (c + 1)).1,
        id :: (attemptToFindRunIdGo idTest env urlOf rest 0 (c + 1)).2) := by
  rw [attemptToFindRunIdGo, henv]
  dsimp only
  split
  · rename_i heq
    rw [hdec] at heq
    cases heq
  · rfl
  · rename_i heq
    rw [hdec] at heq
    cases heq

/-- A failed step fetch with an unhandled message: the error propagates,
aborting the scan. -/
theorem go_err_reraise {msg : String} (id : Nat) (rest : List (Option Nat))
    (a c : Nat) (henv : env c = .err msg)
    (hdec : shouldRetryOrThrow msg a = .reraise) :
    attemptToFindRunIdGo idTest env urlOf (some id :: rest) a c = (.raised msg, [id]) := by
  rw [attemptToFindRunIdGo, henv]
  dsimp only
  split
  · rename_i heq
    rw [hdec] at heq
    cases heq
  · rename_i heq
    rw [hdec] at heq
    cases heq
  · rfl

end GoUnfold

/-- The environment in which every step fetch fails with the transient
`Server Error` condition. -/
def serverErrorEnv : Nat → StepsOutcome := fun _ => .err "Server Error"

/-- Under `serverErrorEnv`, a candidate entered with attempt counter
`RETRY_MAX - k` consumes `k + 1` step-fetch invocations — `k` retries of the
same candidate followed by one abandoning attempt — and then hands the scan to
the remaining candidates with the attempt counter reset to zero. -/
theorem go_SE_candidate (idTest : String → Bool) (urlOf : Nat → String)
    (id : Nat) (rest : List (Option Nat)) :
    ∀ k, k ≤ WORKFLOW_JOB_STEPS_SERVER_ERROR_RETRY_MAX → ∀ c,
      attemptToFindRunIdGo idTest serverErrorEnv urlOf (some id :: rest)
          (WORKFLOW_JOB_STEPS_SERVER_ERROR_RETRY_MAX - k) c =
        ((attemptToFindRunIdGo idTest serverErrorEnv urlOf rest 0 (c + k + 1)).1,
          List.replicate (k + 1) id ++
            (attemptToFindRunIdGo idTest serverErrorEnv urlOf rest 0 (c + k + 1)).2) := by
  intro k
  induction k with
  | zero =>
    intro _ c
    rw [go_err_advance idTest serverErrorEnv urlOf id rest _ c rfl
      (by simp [shouldRetryOrThrow])]
    simp
  | succ k ih =>
    intro hk c
    have ha : WORKFLOW_JOB_STEPS_SERVER_ERROR_RETRY_MAX - (k + 1) <
        WORKFLOW_JOB_STEPS_SERVER_ERROR_RETRY_MAX := by
      have : 0 < WORKFLOW_JOB_STEPS_SERVER_ERROR_RETRY_MAX := by
        omega
      omega
    rw [go_err_retry idTest serverErrorEnv urlOf id rest _ c rfl
      (by simp [shouldRetryOrThrow, ha])]
    have hstep : WORKFLOW_JOB_STEPS_SERVER_ERROR_RETRY_MAX - (k + 1) + 1 =
        WORKFLOW_JOB_STEPS_SERVER_ERROR_RETRY_MAX - k := by omega
    rw [hstep, ih (by omega) (c + 1)]
    have harg : c + 1 + k + 1 = c + (k + 1) + 1 := by omega
    rw [harg]
    simp [List.replicate_succ]

/-- Under `serverErrorEnv`, a candidate entered with attempt counter zero
consumes exactly `RETRY_MAX + 1` step-fetch invocations before the scan moves
past it. -/
theorem go_SE_candidate_full (idTest : String → Bool) (urlOf : Nat → String)
    (id : Nat) (rest : List (Option Nat)) (c : Nat) :
    attemptToFindRunIdGo idTest serverErrorEnv urlOf (some id :: rest) 0 c =
      ((attemptToFindRunIdGo idTest serverErrorEnv urlOf rest 0
          (c + WORKFLOW_JOB_STEPS_SERVER_ERROR_RETRY_MAX + 1)).1,
        List.replicate (WORKFLOW_JOB_STEPS_SERVER_ERROR_RETRY_MAX + 1) id ++
          (attemptToFindRunIdGo idTest serverErrorEnv urlOf rest 0
            (c + WORKFLOW_JOB_STEPS_SERVER_ERROR_RETRY_MAX + 1)).2) := by
  have h := go_SE_candidate idTest urlOf id rest
    WORKFLOW_JOB_STEPS_SERVER_ERROR_RETRY_MAX le_rfl c
  simpa [Nat.sub_self] using h

/-- Under `serverErrorEnv`, scanning any list of defined candidates abandons
each in turn and ends not-found, fetching each candidate
`RETRY_MAX + 1` times in order. -/
theorem go_SE_all (idTest : String → Bool) (urlOf : Nat → String) :
    ∀ (ids : List Nat) (c : Nat),
      attemptToFindRunIdGo idTest serverErrorEnv urlOf (ids.map some) 0 c =
        (.notFound,
          ids.flatMap (fun id =>
            List.replicate (WORKFLOW_JOB_STEPS_SERVER_ERROR_RETRY_MAX + 1) id)) := by
  intro ids
  induction ids with
  | nil => intro c; simpa using go_nil idTest serverErrorEnv urlOf 0 c
  | cons id rest ih =>
    intro c
    rw [List.map_cons, go_SE_candidate_full idTest urlOf id (rest.map some) c]
    rw [ih (c + WORKFLOW_JOB_STEPS_SERVER_ERROR_RETRY_MAX + 1)]
    simp [List.flatMap_cons]

/-- C1: under all-`Server Error` step fetching, (i) while the attempt counter
is below `WORKFLOW_JOB_STEPS_SERVER_ERROR_RETRY_MAX` the scan retries the same
candidate without advancing the candidate index, incrementing the counter;
(ii) at the maximum the candidate is abandoned and the scan advances with the
counter reset to zero; (iii) consequently scanning any list of defined
candidates returns the not-found failure after fetching each candidate's steps
exactly `WORKFLOW_JOB_STEPS_SERVER_ERROR_RETRY_MAX + 1` times, for a total of
`candidates × (RETRY_MAX + 1)` step-fetch invocations. -/
theorem c1_server_error_retry_accounting :
    (∀ (idTest : String → Bool) (urlOf : Nat → String) (id : Nat)
        (rest : List (Option Nat)) (a c : Nat),
      a < WORKFLOW_JOB_STEPS_SERVER_ERROR_RETRY_MAX →
      attemptToFindRunIdGo idTest serverErrorEnv urlOf (some id :: rest) a c =
        ((attemptToFindRunIdGo idTest serverErrorEnv urlOf (some id :: rest) (a + 1) (c + 1)).1,
          id :: (attemptToFindRunIdGo idTest serverErrorEnv urlOf (some id :: rest)
            (a + 1) (c + 1)).2)) ∧
    (∀ (idTest : String → Bool) (urlOf : Nat → String) (id : Nat)
        (rest : List (Option Nat)) (c : Nat),
      attemptToFindRunIdGo idTest serverErrorEnv urlOf (some id :: rest)
          WORKFLOW_JOB_STEPS_SERVER_ERROR_RETRY_MAX c =
        ((attemptToFindRunIdGo idTest serverErrorEnv urlOf rest 0 (c + 1)).1,
          id :: (attemptToFindRunIdGo idTest serverErrorEnv urlOf rest 0 (c + 1)).2)) ∧
    (∀ (idTest : String → Bool) (urlOf : Nat → String) (ids : List Nat),
      attemptToFindRunId idTest serverErrorEnv urlOf (ids.map some) =
        (.notFound,
          ids.flatMap (fun id =>
            List.replicate (WORKFLOW_JOB_STEPS_SERVER_ERROR_RETRY_MAX + 1) id)) ∧
      (attemptToFindRunId idTest serverErrorEnv urlOf (ids.map some)).2.length =
        ids.length * (WORKFLOW_JOB_STEPS_SERVER_ERROR_RETRY_MAX + 1)) := by
  refine ⟨?_, ?_, ?_⟩
  · intro idTest urlOf id rest a c ha
    exact go_err_retry idTest serverErrorEnv urlOf id rest a c rfl
      (by simp [shouldRetryOrThrow, ha])
  · intro idTest urlOf id rest c
    exact go_err_advance idTest serverErrorEnv urlOf id rest _ c rfl
      (by simp [shouldRetryOrThrow])
  · intro idTest urlOf ids
    have hall := go_SE_all idTest urlOf ids 0
    have hlen : ∀ l : List Nat,
        (l.flatMap (fun id =>
          List.replicate (WORKFLOW_JOB_STEPS_SERVER_ERROR_RETRY_MAX + 1) id)).length =
          l.length * (WORKFLOW_JOB_STEPS_SERVER_ERROR_RETRY_MAX + 1) := by
      intro l
      induction l with
      | nil => simp
      | cons x xs ih => simp [List.flatMap_cons, ih]; ring
    refine ⟨hall, ?_⟩
    rw [attemptToFindRunId, hall]
    exact hlen ids

/-- C1 witness: the retry, abandon and full-scan behaviour evaluated at
concrete inputs — attempt 0 on candidate 5 retries in place; attempt
`RETRY_MAX` abandons; scanning `[5, 6]` fetches `2 × (RETRY_MAX + 1) = 8`
times and ends not-found. -/
theorem c1_witness :
    (attemptToFindRunIdGo (fun _ => false) serverErrorEnv (fun _ => "") [some 5] 0 0 =
      ((attemptToFindRunIdGo (fun _ => false) serverErrorEnv (fun _ => "") [some 5] 1 1).1,
        5 :: (attemptToFindRunIdGo (fun _ => false) serverErrorEnv (fun _ => "") [some 5] 1 1).2)) ∧
    (attemptToFindRunIdGo (fun _ => false) serverErrorEnv (fun _ => "") [some 5]
        WORKFLOW_JOB_STEPS_SERVER_ERROR_RETRY_MAX 0 =
      ((attemptToFindRunIdGo (fun _ => false) serverErrorEnv (fun _ => "") [] 0 1).1,
        5 :: (attemptToFindRunIdGo (fun _ => false) serverErrorEnv (fun _ => "") [] 0 1).2)) ∧
    (attemptToFindRunId (fun _ => false) serverErrorEnv (fun _ => "") ([5, 6].map some) =
      (.notFound, [5, 5, 5, 5, 6, 6, 6, 6]) ∧
    (attemptToFindRunId (fun _ => false) serverErrorEnv (fun _ => "") ([5, 6].map some)).2.length = 8) := by
  refine ⟨?_, ?_, ?_⟩
  · exact c1_server_error_retry_accounting.1 (fun _ => false) (fun _ => "") 5 [] 0 0
      (by norm_num [WORKFLOW_JOB_STEPS_SERVER_ERROR_RETRY_MAX])
  · exact c1_server_error_retry_accounting.2.1 (fun _ => false) (fun _ => "") 5 [] 0
  · have h := c1_server_error_retry_accounting.2.2 (fun _ => false) (fun _ => "") [5, 6]
    refine ⟨?_, ?_⟩
    · rw [h.1]
      decide
    · rw [h.2]
      decide

/-- C3: for every candidate list that is empty or contains only
missing/undefined entries, the current `attemptToFindRunId` returns the
distinct "invalid input" failure — a constructor different from the timeout
failure — with an empty fetch log (no step fetch), and the result is the same
whatever the remote oracles would have answered (no remote call of any kind
is consulted). -/
theorem c3_invalid_input_without_remote_calls
    (idTest : String → Bool) (env : Nat → StepsOutcome) (urlOf : Nat → String)
    (ids : List (Option Nat)) (hall : ids.all (fun x => x == none) = true) :
    attemptToFindRunIdCurrent idTest env urlOf ids = (.invalidInput, []) ∧
    FindResultCurrent.invalidInput ≠ FindResultCurrent.timeoutFail := by
  refine ⟨?_, by simp⟩
  simp [attemptToFindRunIdCurrent, hall]

/-- C3 witness: the invalid-input behaviour evaluated on the empty list and on
`[undefined]`. -/
theorem c3_witness :
    attemptToFindRunIdCurrent (fun _ => false) (fun _ => .ok []) (fun _ => "") [] =
      (.invalidInput, []) ∧
    attemptToFindRunIdCurrent (fun _ => false) (fun _ => .ok []) (fun _ => "") [none] =
      (.invalidInput, []) ∧
    FindResultCurrent.invalidInput ≠ FindResultCurrent.timeoutFail :=
  ⟨(c3_invalid_input_without_remote_calls _ _ _ [] (by decide)).1,
   (c3_invalid_input_without_remote_calls _ _ _ [none] (by decide)).1,
   (c3_invalid_input_without_remote_calls (fun _ => false) (fun _ => .ok [])
      (fun _ => "") [] (by decide)).2⟩

/-- Scanning a candidate list with an `undefined` entry behaves exactly like
scanning the defined prefix alone: the suffix after the `undefined` entry is
never reached, and every fetched run id belongs to the prefix. -/
theorem go_append_undef (idTest : String → Bool) (env : Nat → StepsOutcome)
    (urlOf : Nat → String) :
    ∀ (ids : List (Option Nat)) (a c : Nat) (pre : List Nat) (suf : List (Option Nat)),
      ids = pre.map some ++ none :: suf →
      attemptToFindRunIdGo idTest env urlOf ids a c =
        attemptToFindRunIdGo idTest env urlOf (pre.map some) a c ∧
      ∀ x ∈ (attemptToFindRunIdGo idTest env urlOf ids a c).2, x ∈ pre := by
  intro ids a c
  refine attemptToFindRunIdGo.induct idTest env urlOf
    (fun ids a c => ∀ (pre : List Nat) (suf : List (Option Nat)),
      ids = pre.map some ++ none :: suf →
      attemptToFindRunIdGo idTest env urlOf ids a c =
        attemptToFindRunIdGo idTest env urlOf (pre.map some) a c ∧
      ∀ x ∈ (attemptToFindRunIdGo idTest env urlOf ids a c).2, x ∈ pre)
    ?_ ?_ ?_ ?_ ?_ ?_ ?_ ids a c
  · intro a c pre suf heq
    exact absurd heq (by simp)
  · intro tail a c pre suf heq
    have hpre : pre = [] := by
      cases pre with
      | nil => rfl
      | cons p ps => simp at heq
    subst hpre
    refine ⟨by rw [go_undef, List.map_nil, go_nil], ?_⟩
    intro x hx
    rw [go_undef] at hx
    simp at hx
  · intro id rest a c steps henv hany pre suf heq
    obtain ⟨pre', rfl, hrest⟩ : ∃ pre', pre = id :: pre' ∧
        rest = pre'.map some ++ none :: suf := by
      cases pre with
      | nil => simp at heq
      | cons p ps =>
        simp only [List.map_cons, List.cons_append, List.cons.injEq,
          Option.some.injEq] at heq
        exact ⟨ps, by rw [heq.1], heq.2⟩
    rw [go_ok_found idTest env urlOf id rest a c henv hany,
      List.map_cons,
      go_ok_found idTest env urlOf id (pre'.map some) a c henv hany]
    exact ⟨rfl, by intro x hx; simp at hx; simp [hx]⟩
  · intro id rest a c steps henv hany ih pre suf heq
    obtain ⟨pre', rfl, hrest⟩ : ∃ pre', pre = id :: pre' ∧
        rest = pre'.map some ++ none :: suf := by
      cases pre with
      | nil => simp at heq
      | cons p ps =>
        simp only [List.map_cons, List.cons_append, List.cons.injEq,
          Option.some.injEq] at heq
        exact ⟨ps, by rw [heq.1], heq.2⟩
    have hih := ih pre' suf hrest
    rw [go_ok_next idTest env urlOf id rest a c henv hany,
      List.map_cons,
      go_ok_next idTest env urlOf id (pre'.map some) a c henv hany]
    constructor
    · rw [hih.1]
    · intro x hx
      simp only [List.mem_cons] at hx
      rcases hx with hx | hx
      · simp [hx]
      · exact List.mem_cons_of_mem _ (hih.2 x hx)
  · intro id rest a c msg henv hdec ih pre suf heq
    obtain ⟨pre', rfl, hrest⟩ : ∃ pre', pre = id :: pre' ∧
        rest = pre'.map some ++ none :: suf := by
      cases pre with
      | nil => simp at heq
      | cons p ps =>
        simp only [List.map_cons, List.cons_append, List.cons.injEq,
          Option.some.injEq] at heq
        exact ⟨ps, by rw [heq.1], heq.2⟩
    have hih := ih (id :: pre') suf heq
    have h1 := hih.1
    rw [List.map_cons] at h1
    rw [go_err_retry idTest env urlOf id rest a c henv hdec,
      List.map_cons, go_err_retry idTest env urlOf id (pre'.map some) a c henv hdec]
    constructor
    · rw [h1]
    · intro x hx
      simp only [List.mem_cons] at hx
      rcases hx with hx | hx
      · simp [hx]
      · exact hih.2 x hx
  · intro id rest a c msg henv hdec ih pre suf heq
    obtain ⟨pre', rfl, hrest⟩ : ∃ pre', pre = id :: pre' ∧
        rest = pre'.map some ++ none :: suf := by
      cases pre with
      | nil => simp at heq
      | cons p ps =>
        simp only [List.map_cons, List.cons_append, List.cons.injEq,
          Option.some.injEq] at heq
        exact ⟨ps, by rw [heq.1], heq.2⟩
    have hih := ih pre' suf hrest
    rw [go_err_advance idTest env urlOf id rest a c henv hdec,
      List.map_cons,
      go_err_advance idTest env urlOf id (pre'.map some) a c henv hdec]
    constructor
    · rw [hih.1]
    · intro x hx
      simp only [List.mem_cons] at hx
      rcases hx with hx | hx
      · simp [hx]
      · exact List.mem_cons_of_mem _ (hih.2 x hx)
  · intro id rest a c msg henv hdec pre suf heq
    obtain ⟨pre', rfl, hrest⟩ : ∃ pre', pre = id :: pre' ∧
        rest = pre'.map some ++ none :: suf := by
      cases pre with
      | nil => simp at heq
      | cons p ps =>
        simp only [List.map_cons, List.cons_append, List.cons.injEq,
          Option.some.injEq] at heq
        exact ⟨ps, by rw [heq.1], heq.2⟩
    rw [go_err_reraise idTest env urlOf id rest a c henv hdec,
      List.map_cons,
      go_err_reraise idTest env urlOf id (pre'.map some) a c henv hdec]
    exact ⟨rfl, by intro x hx; simp at hx; simp [hx]⟩

/-- C10: when a candidate list has an `undefined` entry at index `k`, the scan
never fetches job steps for the candidate at index `k` or any higher index —
every fetched run id belongs to the defined prefix before the `undefined`
entry — and, whatever the suffix would have matched, the whole scan returns
exactly what scanning the prefix alone returns; in particular it yields the
not-found failure whenever the prefix scan does. -/
theorem c10_undefined_entry_aborts_scan (idTest : String → Bool)
    (env : Nat → StepsOutcome) (urlOf : Nat → String)
    (pre : List Nat) (suf : List (Option Nat)) :
    attemptToFindRunId idTest env urlOf (pre.map some ++ none :: suf) =
      attemptToFindRunId idTest env urlOf (pre.map some) ∧
    (∀ x ∈ (attemptToFindRunId idTest env urlOf (pre.map some ++ none :: suf)).2, x ∈ pre) ∧
    ((attemptToFindRunId idTest env urlOf (pre.map some)).1 = .notFound →
      (attemptToFindRunId idTest env urlOf (pre.map some ++ none :: suf)).1 = .notFound) := by
  have h := go_append_undef idTest env urlOf (pre.map some ++ none :: suf) 0 0 pre suf rfl
  refine ⟨h.1, h.2, ?_⟩
  intro hnf
  rw [attemptToFindRunId] at hnf ⊢
  rw [h.1]
  exact hnf

/-- An always-unmatched correlation test, for concrete scan evaluations. -/
def t10 : String → Bool := fun _ => false

/-- A step-fetch oracle that always succeeds with no steps. -/
def e10 : Nat → StepsOutcome := fun _ => .ok []

/-- A constant run-URL oracle. -/
def u10 : Nat → String := fun _ => "u"

/-- C10 witness: scanning `[4, undefined, 9]` equals scanning `[4]` alone, the
only fetched run id (4) lies in the prefix, and the scan ends not-found. -/
theorem c10_witness :
    attemptToFindRunId t10 e10 u10 ([4].map some ++ none :: [some 9]) =
      attemptToFindRunId t10 e10 u10 ([4].map some) ∧
    (4 : Nat) ∈ [4] ∧
    (attemptToFindRunId t10 e10 u10 ([4].map some ++ none :: [some 9])).1 = .notFound := by
  have hc := c10_undefined_entry_aborts_scan t10 e10 u10 [4] [some 9]
  have hpre : attemptToFindRunId t10 e10 u10 ([4].map some) = (.notFound, [4]) := by
    rw [attemptToFindRunId, show ([4] : List Nat).map some = [some 4] from rfl,
      go_ok_next t10 e10 u10 4 [] 0 0 rfl (by simp [t10]), go_nil]
  have hfull : attemptToFindRunId t10 e10 u10 ([4].map some ++ none :: [some 9]) =
      (.notFound, [4]) := by
    rw [attemptToFindRunId,
      show (([4] : List Nat).map some ++ none :: [some 9]) = [some 4, none, some 9] from rfl,
      go_ok_next t10 e10 u10 4 [none, some 9] 0 0 rfl (by simp [t10]),
      go_undef]
  exact ⟨hc.1, hc.2.1 4 (by rw [hfull]; simp), hc.2.2 (by rw [hpre])⟩

end ReturnDispatch
